import Mathlib

/-!
Shallow embedding of `programs/solana-ed25519-sig-verification/src/lib.rs`,
the layout validator for Ed25519Program signature-verification instructions,
together with proofs about its validation behaviour.

Modelling conventions:
* a byte is a `Nat` (the code only compares bytes and slices for equality,
  so no arithmetic on byte values is needed beyond little-endian encoding);
* a byte buffer (`&[u8]`, `Vec<u8>`) is a `List Nat`;
* a fallible computation that can panic in Rust (out-of-bounds slicing,
  `try_into().unwrap()`) is an `Option`: `none` models a panic, `some r`
  models a normal return of `r`;
* `ProgramResult` keeps the two outcomes the program ever produces:
  `Ok(())` and `Err(ErrorCode::SigVerificationFailed.into())`.
-/

/-- `solana_program::instruction::AccountMeta`: only its presence in the
account list matters to the validator (`ix.accounts.len() != 0`). -/
structure AccountMeta where
  pubkey : List Nat
  isSigner : Bool
  isWritable : Bool
deriving DecidableEq

/-- `solana_program::instruction::Instruction`: program id (a 32-byte
public key, modelled as its byte list), account metas, and raw data. -/
structure Instruction where
  program_id : List Nat
  accounts : List AccountMeta
  data : List Nat
deriving DecidableEq

/-- The two outcomes of `sig_verify` / `check_data`: `Ok(())`, or the
custom error `ErrorCode::SigVerificationFailed`. -/
inductive ProgramResult where
  | ok : ProgramResult
  | sigVerificationFailed : ProgramResult
deriving DecidableEq

/-- `solana_program::ed25519_program::ID`, the 32 bytes of the base58
pubkey `Ed25519SigVerify111111111111111111111111111`. -/
def ED25519_ID : List Nat :=
  [3, 125, 70, 214, 124, 147, 251, 190, 18, 249, 66, 143, 131, 141, 64, 255,
   5, 112, 116, 73, 39, 244, 138, 100, 252, 202, 112, 68, 128, 0, 0, 0]

/-- `u16::to_le_bytes` on a value already reduced below `2^16`:
little-endian byte pair. -/
def u16_to_le_bytes (v : Nat) : List Nat := [v % 256, v / 256 % 256]

/-- `u8::to_le_bytes`: a single byte. -/
def u8_to_le_bytes (v : Nat) : List Nat := [v % 256]

/-- The sub-slice `&data[lo .. lo+len]` (as a list; shorter when the
buffer runs out, a case the callers below guard against). -/
def byteSlice (data : List Nat) (lo len : Nat) : List Nat := (data.drop lo).take len

/-- `utils::check_data(data, msg, sig, pubkey)` from the source.

The Rust function slices `data` at fixed offsets up to 112 with no length
guard of its own, so any `data` shorter than 112 bytes makes one of the
indexing expressions `data[0]`, …, `data[112..]` panic: modelled by the
leading `none`.  `exp_signature_offset` and `exp_message_data_offset` are
`u16` sums with `as u16` casts (wrapping, hence the `% 65536`), and
`exp_message_data_size` is `msg.len().try_into().unwrap()`, which panics
when the message length does not fit in 16 bits: the second `none`.
Otherwise the nine header fields and the three body regions are compared
exactly as in the source, with the all-or-nothing
`SigVerificationFailed` error. -/
def check_data (data msg sig pubkey : List Nat) : Option ProgramResult :=
  if data.length < 112 then none else
  let num_signatures := byteSlice data 0 1
  let padding := byteSlice data 1 1
  let signature_offset := byteSlice data 2 2
  let signature_instruction_index := byteSlice data 4 2
  let public_key_offset := byteSlice data 6 2
  let public_key_instruction_index := byteSlice data 8 2
  let message_data_offset := byteSlice data 10 2
  let message_data_size := byteSlice data 12 2
  let message_instruction_index := byteSlice data 14 2
  let data_pubkey := byteSlice data 16 32
  let data_sig := byteSlice data 48 64
  let data_msg := data.drop 112
  if 65536 ≤ msg.length then none else
  let exp_public_key_offset : Nat := 16
  let exp_signature_offset : Nat := (exp_public_key_offset + pubkey.length % 65536) % 65536
  let exp_message_data_offset : Nat := (exp_signature_offset + sig.length % 65536) % 65536
  let exp_num_signatures : Nat := 1
  let exp_message_data_size : Nat := msg.length
  if num_signatures ≠ u8_to_le_bytes exp_num_signatures ∨
     padding ≠ [0] ∨
     signature_offset ≠ u16_to_le_bytes exp_signature_offset ∨
     signature_instruction_index ≠ u16_to_le_bytes 65535 ∨
     public_key_offset ≠ u16_to_le_bytes exp_public_key_offset ∨
     public_key_instruction_index ≠ u16_to_le_bytes 65535 ∨
     message_data_offset ≠ u16_to_le_bytes exp_message_data_offset ∨
     message_data_size ≠ u16_to_le_bytes exp_message_data_size ∨
     message_instruction_index ≠ u16_to_le_bytes 65535 then
    some ProgramResult.sigVerificationFailed
  else if data_pubkey ≠ pubkey ∨ data_msg ≠ msg ∨ data_sig ≠ sig then
    some ProgramResult.sigVerificationFailed
  else
    some ProgramResult.ok

/-- `utils::sig_verify(ix, msg, sig, pubkey)` from the source: the coarse
shape check on program id, account count and data length, then
`check_data` on the instruction data. -/
def sig_verify (ix : Instruction) (msg sig pubkey : List Nat) : Option ProgramResult :=
  if ix.program_id ≠ ED25519_ID ∨ ix.accounts.length ≠ 0 ∨
     ix.data.length ≠ 16 + 64 + 32 + msg.length then
    some ProgramResult.sigVerificationFailed
  else
    check_data ix.data msg sig pubkey

/-- The 16-byte header the trusted verifier emits for one signature whose
public key, signature and message follow contiguously: the reference
layout of `web3.Ed25519Program.createInstructionWithPublicKey`. -/
def expectedHeader (msgLen : Nat) : List Nat :=
  u8_to_le_bytes 1 ++ [0] ++ u16_to_le_bytes 48 ++ u16_to_le_bytes 65535 ++
  u16_to_le_bytes 16 ++ u16_to_le_bytes 65535 ++ u16_to_le_bytes 112 ++
  u16_to_le_bytes msgLen ++ u16_to_le_bytes 65535

/-- The full canonical payload: header, then public key, signature and
message back to back. -/
def expectedPayload (msg sig pubkey : List Nat) : List Nat :=
  expectedHeader msg.length ++ pubkey ++ sig ++ msg

/-! ### List bookkeeping lemmas -/

/-- Splitting a `take` of a sum into two consecutive chunks. -/
theorem take_add_split (l : List Nat) (a b : Nat) :
    l.take (a + b) = l.take a ++ (l.drop a).take b := by
  induction a generalizing l with
  | zero => simp
  | succ n ih =>
    cases l with
    | nil => simp
    | cons x xs =>
      rw [Nat.succ_add, List.take_succ_cons, List.take_succ_cons, List.drop_succ_cons,
        List.cons_append, ih]

/-- Two adjacent byte slices concatenate to one longer slice. -/
theorem byteSlice_append (data : List Nat) (a n m : Nat) :
    byteSlice data a n ++ byteSlice data (a + n) m = byteSlice data a (n + m) := by
  unfold byteSlice
  rw [take_add_split (data.drop a) n m, List.drop_drop]

/-- A byte slice up to the end of the buffer recovers a `drop`. -/
theorem byteSlice_zero_append_drop (data : List Nat) (n : Nat) :
    byteSlice data 0 n ++ data.drop n = data := by
  unfold byteSlice
  rw [List.drop_zero, List.take_append_drop]

/-- Any buffer is the concatenation of the twelve regions `check_data`
inspects: the nine header fields, the public-key and signature windows,
and the tail from offset 112. -/
theorem byteSlice_decomp (data : List Nat) :
    byteSlice data 0 1 ++ byteSlice data 1 1 ++ byteSlice data 2 2 ++ byteSlice data 4 2 ++
      byteSlice data 6 2 ++ byteSlice data 8 2 ++ byteSlice data 10 2 ++ byteSlice data 12 2 ++
      byteSlice data 14 2 ++ byteSlice data 16 32 ++ byteSlice data 48 64 ++ data.drop 112
      = data := by
  have step : ∀ a n k, a + n = k →
      byteSlice data 0 a ++ byteSlice data a n = byteSlice data 0 k := by
    intro a n k h
    have e := byteSlice_append data 0 a n
    rw [Nat.zero_add] at e
    rw [← h]
    exact e
  rw [show byteSlice data 0 1 ++ byteSlice data 1 1 = byteSlice data 0 2 from step 1 1 2 rfl,
    step 2 2 4 rfl, step 4 2 6 rfl, step 6 2 8 rfl, step 8 2 10 rfl, step 10 2 12 rfl,
    step 12 2 14 rfl, step 14 2 16 rfl, step 16 32 48 rfl, step 48 64 112 rfl,
    byteSlice_zero_append_drop]

/-! ### Regions of the canonical payload -/

theorem expectedHeader_length (m : Nat) : (expectedHeader m).length = 16 := by
  simp [expectedHeader, u8_to_le_bytes, u16_to_le_bytes]

theorem expectedPayload_assoc (msg sig pubkey : List Nat) :
    expectedPayload msg sig pubkey
      = expectedHeader msg.length ++ (pubkey ++ (sig ++ msg)) := by
  simp [expectedPayload, List.append_assoc]

theorem expectedPayload_length (msg sig pubkey : List Nat)
    (hpk : pubkey.length = 32) (hsig : sig.length = 64) :
    (expectedPayload msg sig pubkey).length = 112 + msg.length := by
  simp [expectedPayload, expectedHeader_length, hpk, hsig]
  omega

theorem expectedPayload_drop16 (msg sig pubkey : List Nat) :
    (expectedPayload msg sig pubkey).drop 16 = pubkey ++ (sig ++ msg) := by
  rw [expectedPayload_assoc]
  exact List.drop_left' (expectedHeader_length _)

theorem expectedPayload_drop48 (msg sig pubkey : List Nat) (hpk : pubkey.length = 32) :
    (expectedPayload msg sig pubkey).drop 48 = sig ++ msg := by
  have h : (expectedPayload msg sig pubkey).drop 48
      = ((expectedPayload msg sig pubkey).drop 16).drop 32 := by
    simp [List.drop_drop]
  rw [h, expectedPayload_drop16]
  exact List.drop_left' hpk

theorem expectedPayload_drop112 (msg sig pubkey : List Nat)
    (hpk : pubkey.length = 32) (hsig : sig.length = 64) :
    (expectedPayload msg sig pubkey).drop 112 = msg := by
  have h : (expectedPayload msg sig pubkey).drop 112
      = ((expectedPayload msg sig pubkey).drop 48).drop 64 := by
    simp [List.drop_drop]
  rw [h, expectedPayload_drop48 msg sig pubkey hpk]
  exact List.drop_left' hsig

theorem expectedPayload_pubkeyRegion (msg sig pubkey : List Nat)
    (hpk : pubkey.length = 32) :
    byteSlice (expectedPayload msg sig pubkey) 16 32 = pubkey := by
  unfold byteSlice
  rw [expectedPayload_drop16]
  exact List.take_left' hpk

theorem expectedPayload_sigRegion (msg sig pubkey : List Nat)
    (hpk : pubkey.length = 32) (hsig : sig.length = 64) :
    byteSlice (expectedPayload msg sig pubkey) 48 64 = sig := by
  unfold byteSlice
  rw [expectedPayload_drop48 msg sig pubkey hpk]
  exact List.take_left' hsig

/-- The nine header fields of the canonical payload, at their wire
offsets, in the order they are compared by `check_data`. -/
theorem expectedPayload_headerFields (msg sig pubkey : List Nat) :
    byteSlice (expectedPayload msg sig pubkey) 0 1 = [1] ∧
    byteSlice (expectedPayload msg sig pubkey) 1 1 = [0] ∧
    byteSlice (expectedPayload msg sig pubkey) 2 2 = u16_to_le_bytes 48 ∧
    byteSlice (expectedPayload msg sig pubkey) 4 2 = u16_to_le_bytes 65535 ∧
    byteSlice (expectedPayload msg sig pubkey) 6 2 = u16_to_le_bytes 16 ∧
    byteSlice (expectedPayload msg sig pubkey) 8 2 = u16_to_le_bytes 65535 ∧
    byteSlice (expectedPayload msg sig pubkey) 10 2 = u16_to_le_bytes 112 ∧
    byteSlice (expectedPayload msg sig pubkey) 12 2 = u16_to_le_bytes msg.length ∧
    byteSlice (expectedPayload msg sig pubkey) 14 2 = u16_to_le_bytes 65535 := by
  refine ⟨?_, ?_, ?_, ?_, ?_, ?_, ?_, ?_, ?_⟩ <;>
    simp [expectedPayload, expectedHeader, u8_to_le_bytes, u16_to_le_bytes, byteSlice]

/-! ### The characterization of successful validation -/

/-- `check_data` succeeds exactly on the canonical payload (for a 32-byte
public key, 64-byte signature, and a message length that fits in 16 bits). -/
theorem check_data_ok_iff (data msg sig pubkey : List Nat)
    (hpk : pubkey.length = 32) (hsig : sig.length = 64) (hmsg : msg.length < 65536) :
    check_data data msg sig pubkey = some ProgramResult.ok ↔
      data = expectedPayload msg sig pubkey := by
  constructor
  · intro h
    simp only [check_data] at h
    split_ifs at h with hlen hbig hhdr harg
    all_goals simp at h
    push_neg at hhdr harg
    obtain ⟨e0, e1, e2, e3, e4, e5, e6, e7, e8⟩ := hhdr
    obtain ⟨a1, a2, a3⟩ := harg
    rw [hpk] at e2
    rw [hpk, hsig] at e6
    norm_num at e2 e6
    conv_lhs => rw [← byteSlice_decomp data]
    rw [e0, e1, e2, e3, e4, e5, e6, e7, e8, a1, a3, a2]
    simp [expectedPayload, expectedHeader, u8_to_le_bytes, u16_to_le_bytes]
  · intro h
    subst h
    obtain ⟨e0, e1, e2, e3, e4, e5, e6, e7, e8⟩ := expectedPayload_headerFields msg sig pubkey
    simp only [check_data, expectedPayload_length msg sig pubkey hpk hsig, hpk, hsig,
      e0, e1, e2, e3, e4, e5, e6, e7, e8,
      expectedPayload_pubkeyRegion msg sig pubkey hpk,
      expectedPayload_sigRegion msg sig pubkey hpk hsig,
      expectedPayload_drop112 msg sig pubkey hpk hsig]
    norm_num [u8_to_le_bytes, u16_to_le_bytes, hmsg, Nat.not_lt.mpr, Nat.not_lt]

/-- On a buffer long enough for its slicing and a message length that
fits in 16 bits, `check_data` cannot panic: it returns `Ok` or the
`SigVerificationFailed` error. -/
theorem check_data_isSome (data msg sig pubkey : List Nat)
    (hlen : 112 ≤ data.length) (hmsg : msg.length < 65536) :
    check_data data msg sig pubkey = some ProgramResult.ok ∨
      check_data data msg sig pubkey = some ProgramResult.sigVerificationFailed := by
  simp only [check_data]
  split_ifs with h1 h2 h3 h4
  · omega
  · omega
  · right; rfl
  · right; rfl
  · left; rfl

/-- `sig_verify` succeeds exactly when the candidate instruction carries
the trusted program id, no accounts, and the canonical payload. -/
theorem sig_verify_ok_iff (ix : Instruction) (msg sig pubkey : List Nat)
    (hpk : pubkey.length = 32) (hsig : sig.length = 64) (hmsg : msg.length < 65536) :
    sig_verify ix msg sig pubkey = some ProgramResult.ok ↔
      ix.program_id = ED25519_ID ∧ ix.accounts.length = 0 ∧
        ix.data = expectedPayload msg sig pubkey := by
  unfold sig_verify
  split_ifs with hguard
  · constructor
    · intro h
      simp at h
    · rintro ⟨hp, ha, hd⟩
      exfalso
      rcases hguard with hg | hg | hg
      · exact hg hp
      · exact hg ha
      · apply hg
        rw [hd, expectedPayload_length msg sig pubkey hpk hsig]
  · rw [check_data_ok_iff ix.data msg sig pubkey hpk hsig hmsg]
    push_neg at hguard
    simp [hguard.1, hguard.2.1]

/-- Corrupting one byte of the canonical payload, anywhere inside it,
makes `sig_verify` fail (never panic). -/
theorem sig_verify_set_corrupt (msg sig pubkey : List Nat)
    (hpk : pubkey.length = 32) (hsig : sig.length = 64) (hmsg : msg.length < 65536)
    (i b : Nat) (hi : i < 112 + msg.length)
    (hb : b ≠ (expectedPayload msg sig pubkey).getD i 0) :
    sig_verify ⟨ED25519_ID, [], (expectedPayload msg sig pubkey).set i b⟩ msg sig pubkey
      = some ProgramResult.sigVerificationFailed := by
  have hplen := expectedPayload_length msg sig pubkey hpk hsig
  have hlen : ((expectedPayload msg sig pubkey).set i b).length = 112 + msg.length := by
    rw [List.length_set, hplen]
  have hne : (expectedPayload msg sig pubkey).set i b ≠ expectedPayload msg sig pubkey := by
    intro he
    apply hb
    have hib : i < ((expectedPayload msg sig pubkey).set i b).length := by omega
    have h1 : ((expectedPayload msg sig pubkey).set i b).getD i 0 = b := by
      rw [List.getD_eq_getElem _ _ hib]
      exact List.getElem_set_self hib
    rw [he] at h1
    exact h1.symm
  unfold sig_verify
  split_ifs with hg
  · rfl
  · rcases check_data_isSome ((expectedPayload msg sig pubkey).set i b) msg sig pubkey
        (by omega) hmsg with hok | hfail
    · exact absurd ((check_data_ok_iff _ msg sig pubkey hpk hsig hmsg).mp hok) hne
    · exact hfail

/-- An oversized message makes the `try_into().unwrap()` on
`msg.len()` panic whenever the slicing itself survived. -/
theorem check_data_none_of_oversized (data msg sig pubkey : List Nat)
    (h : 65536 ≤ msg.length) :
    check_data data msg sig pubkey = none := by
  simp only [check_data]
  split_ifs with h1
  · rfl
  · rfl

/-! ### Test vectors for the witnesses -/

/-- The spec's example message, `b"hello"`. -/
def wMsg : List Nat := [104, 101, 108, 108, 111]

/-- A concrete 64-byte signature. -/
def wSig : List Nat := List.replicate 64 7

/-- A concrete 32-byte public key. -/
def wPk : List Nat := List.replicate 32 9

/-! ### The claims -/

/-- C1: for every candidate instruction and every expected claim with a
64-byte signature, 32-byte public key and message shorter than 65536
bytes, `sig_verify` returns `Ok` if and only if the candidate's program
id equals the trusted Ed25519 verifier id, its account list is empty,
its payload length equals exactly `16+64+32+len(msg)`, all nine decoded
header fields equal their derived expected values, and the three body
regions at offsets 16, 48 and 112 equal the expected public key,
signature and message byte-for-byte. -/
theorem claim_sig_verify_ok_characterization
    (ix : Instruction) (msg sig pubkey : List Nat)
    (hpk : pubkey.length = 32) (hsig : sig.length = 64) (hmsg : msg.length < 65536) :
    sig_verify ix msg sig pubkey = some ProgramResult.ok ↔
      (ix.program_id = ED25519_ID ∧ ix.accounts = [] ∧
        ix.data.length = 16 + 64 + 32 + msg.length ∧
        byteSlice ix.data 0 1 = [1] ∧
        byteSlice ix.data 1 1 = [0] ∧
        byteSlice ix.data 2 2 = u16_to_le_bytes 48 ∧
        byteSlice ix.data 4 2 = u16_to_le_bytes 65535 ∧
        byteSlice ix.data 6 2 = u16_to_le_bytes 16 ∧
        byteSlice ix.data 8 2 = u16_to_le_bytes 65535 ∧
        byteSlice ix.data 10 2 = u16_to_le_bytes 112 ∧
        byteSlice ix.data 12 2 = u16_to_le_bytes msg.length ∧
        byteSlice ix.data 14 2 = u16_to_le_bytes 65535 ∧
        byteSlice ix.data 16 32 = pubkey ∧
        byteSlice ix.data 48 64 = sig ∧
        ix.data.drop 112 = msg) := by
  rw [sig_verify_ok_iff ix msg sig pubkey hpk hsig hmsg]
  constructor
  · rintro ⟨hp, ha, hd⟩
    obtain ⟨e0, e1, e2, e3, e4, e5, e6, e7, e8⟩ := expectedPayload_headerFields msg sig pubkey
    rw [hd]
    refine ⟨hp, List.length_eq_zero.mp ha, ?_, e0, e1, e2, e3, e4, e5, e6, e7, e8,
      expectedPayload_pubkeyRegion msg sig pubkey hpk,
      expectedPayload_sigRegion msg sig pubkey hpk hsig,
      expectedPayload_drop112 msg sig pubkey hpk hsig⟩
    rw [expectedPayload_length msg sig pubkey hpk hsig]
  · rintro ⟨hp, ha, _, e0, e1, e2, e3, e4, e5, e6, e7, e8, a1, a3, a2⟩
    refine ⟨hp, by rw [ha]; rfl, ?_⟩
    conv_lhs => rw [← byteSlice_decomp ix.data]
    rw [e0, e1, e2, e3, e4, e5, e6, e7, e8, a1, a3, a2]
    simp [expectedPayload, expectedHeader, u8_to_le_bytes, u16_to_le_bytes]

/-- Witness for C1 at the spec's example scenario: the canonical payload
for message `b"hello"` with concrete key and signature validates. -/
theorem claim_sig_verify_ok_characterization_witness :
    sig_verify ⟨ED25519_ID, [], expectedPayload wMsg wSig wPk⟩ wMsg wSig wPk
      = some ProgramResult.ok :=
  (claim_sig_verify_ok_characterization ⟨ED25519_ID, [], expectedPayload wMsg wSig wPk⟩
    wMsg wSig wPk (by decide) (by decide) (by decide)).mpr (by decide)

/-- C2, counterexample: with a 65536-byte expected message and an
otherwise well-formed candidate of matching payload length, `sig_verify`
reaches `msg.len().try_into().unwrap()` in `check_data` and panics
(`none`), so it is not true that every input yields `Ok` or
`VerificationFailed`. -/
theorem claim_sig_verify_counterexample_oversized_message :
    sig_verify ⟨ED25519_ID, [], List.replicate 65648 0⟩ (List.replicate 65536 0)
      (List.replicate 64 0) (List.replicate 32 0) = none := by
  unfold sig_verify
  have hg : ¬((Instruction.mk ED25519_ID [] (List.replicate 65648 0)).program_id ≠ ED25519_ID ∨
      (Instruction.mk ED25519_ID [] (List.replicate 65648 0)).accounts.length ≠ 0 ∨
      (Instruction.mk ED25519_ID [] (List.replicate 65648 0)).data.length
        ≠ 16 + 64 + 32 + (List.replicate 65536 (0 : Nat)).length) := by
    push_neg
    refine ⟨rfl, rfl, ?_⟩
    rw [List.length_replicate, List.length_replicate]
  rw [if_neg hg]
  exact check_data_none_of_oversized _ _ _ _ (by rw [List.length_replicate])

/-- C2, amended: `sig_verify` never reads out of bounds, and whenever the
expected message is shorter than 65536 bytes it terminates with `Ok` or
`VerificationFailed`; the only panic is the 16-bit size conversion on an
oversized expected message. -/
theorem claim_sig_verify_total_for_small_messages (ix : Instruction)
    (msg sig pubkey : List Nat) (hmsg : msg.length < 65536) :
    sig_verify ix msg sig pubkey = some ProgramResult.ok ∨
      sig_verify ix msg sig pubkey = some ProgramResult.sigVerificationFailed := by
  unfold sig_verify
  split_ifs with hg
  · right; rfl
  · push_neg at hg
    obtain ⟨h1, h2, h3⟩ := hg
    exact check_data_isSome ix.data msg sig pubkey (by omega) hmsg

/-- Witness for C2's amended theorem on a tiny input: a zero-length
candidate is rejected (not a panic). -/
theorem claim_sig_verify_total_for_small_messages_witness :
    sig_verify ⟨[], [], []⟩ [] [] [] = some ProgramResult.ok ∨
      sig_verify ⟨[], [], []⟩ [] [] [] = some ProgramResult.sigVerificationFailed :=
  claim_sig_verify_total_for_small_messages ⟨[], [], []⟩ [] [] [] (by decide)

/-- C3: with a 32-byte expected public key and 64-byte expected
signature, the only header a payload can carry and pass validation has
signature_count = 1, padding = 0, signature_offset = 48,
public_key_offset = 16, message_offset = 112, message_length =
len(message), and all three instruction-index fields equal to the
16-bit sentinel 0xFFFF, each multi-byte field little-endian at the
fixed wire offsets. -/
theorem claim_unique_passing_header (ix : Instruction) (msg sig pubkey : List Nat)
    (hpk : pubkey.length = 32) (hsig : sig.length = 64)
    (hok : sig_verify ix msg sig pubkey = some ProgramResult.ok) :
    byteSlice ix.data 0 1 = [1] ∧
    byteSlice ix.data 1 1 = [0] ∧
    byteSlice ix.data 2 2 = u16_to_le_bytes 48 ∧
    byteSlice ix.data 4 2 = u16_to_le_bytes 65535 ∧
    byteSlice ix.data 6 2 = u16_to_le_bytes 16 ∧
    byteSlice ix.data 8 2 = u16_to_le_bytes 65535 ∧
    byteSlice ix.data 10 2 = u16_to_le_bytes 112 ∧
    byteSlice ix.data 12 2 = u16_to_le_bytes msg.length ∧
    byteSlice ix.data 14 2 = u16_to_le_bytes 65535 := by
  have hmsg : msg.length < 65536 := by
    by_contra hbig
    push_neg at hbig
    unfold sig_verify at hok
    split_ifs at hok with hg
    · simp at hok
    · rw [check_data_none_of_oversized ix.data msg sig pubkey hbig] at hok
      simp at hok
  obtain ⟨hp, ha, hd⟩ := (sig_verify_ok_iff ix msg sig pubkey hpk hsig hmsg).mp hok
  rw [hd]
  exact expectedPayload_headerFields msg sig pubkey

/-- Witness for C3: the header fields of the concrete validating
candidate of the example scenario are exactly the canonical ones. -/
theorem claim_unique_passing_header_witness :
    byteSlice (expectedPayload wMsg wSig wPk) 0 1 = [1] ∧
    byteSlice (expectedPayload wMsg wSig wPk) 1 1 = [0] ∧
    byteSlice (expectedPayload wMsg wSig wPk) 2 2 = u16_to_le_bytes 48 ∧
    byteSlice (expectedPayload wMsg wSig wPk) 4 2 = u16_to_le_bytes 65535 ∧
    byteSlice (expectedPayload wMsg wSig wPk) 6 2 = u16_to_le_bytes 16 ∧
    byteSlice (expectedPayload wMsg wSig wPk) 8 2 = u16_to_le_bytes 65535 ∧
    byteSlice (expectedPayload wMsg wSig wPk) 10 2 = u16_to_le_bytes 112 ∧
    byteSlice (expectedPayload wMsg wSig wPk) 12 2 = u16_to_le_bytes wMsg.length ∧
    byteSlice (expectedPayload wMsg wSig wPk) 14 2 = u16_to_le_bytes 65535 :=
  claim_unique_passing_header ⟨ED25519_ID, [], expectedPayload wMsg wSig wPk⟩
    wMsg wSig wPk (by decide) (by decide) (by decide)

/-- C4: for every valid (message, signature, public key) triple and the
correctly constructed payload, changing exactly one byte at any position
of the 16-byte header (offsets 0 through 15) makes validation return
`VerificationFailed`. -/
theorem claim_header_byte_corruption_fails (msg sig pubkey : List Nat)
    (hpk : pubkey.length = 32) (hsig : sig.length = 64) (hmsg : msg.length < 65536)
    (i b : Nat) (hi : i < 16)
    (hb : b ≠ (expectedPayload msg sig pubkey).getD i 0) :
    sig_verify ⟨ED25519_ID, [], (expectedPayload msg sig pubkey).set i b⟩ msg sig pubkey
      = some ProgramResult.sigVerificationFailed :=
  sig_verify_set_corrupt msg sig pubkey hpk hsig hmsg i b (by omega) hb

/-- Witness for C4 at the spec's example: flipping header byte 12 (the
message_length field) from 5 to 6 makes validation fail. -/
theorem claim_header_byte_corruption_fails_witness :
    sig_verify ⟨ED25519_ID, [], (expectedPayload wMsg wSig wPk).set 12 6⟩ wMsg wSig wPk
      = some ProgramResult.sigVerificationFailed :=
  claim_header_byte_corruption_fails wMsg wSig wPk (by decide) (by decide) (by decide)
    12 6 (by decide) (by decide)

/-- C5: for every valid (message, signature, public key) triple and the
correctly constructed payload, changing exactly one byte at any position
in the public-key region [16,48), signature region [48,112) or message
region [112,112+len(msg)) makes validation return `VerificationFailed`. -/
theorem claim_body_byte_corruption_fails (msg sig pubkey : List Nat)
    (hpk : pubkey.length = 32) (hsig : sig.length = 64) (hmsg : msg.length < 65536)
    (i b : Nat) (_hlo : 16 ≤ i) (hi : i < 112 + msg.length)
    (hb : b ≠ (expectedPayload msg sig pubkey).getD i 0) :
    sig_verify ⟨ED25519_ID, [], (expectedPayload msg sig pubkey).set i b⟩ msg sig pubkey
      = some ProgramResult.sigVerificationFailed :=
  sig_verify_set_corrupt msg sig pubkey hpk hsig hmsg i b hi hb

/-- Witness for C5: corrupting public-key byte 20 (from 9 to 1) makes
validation fail. -/
theorem claim_body_byte_corruption_fails_witness :
    sig_verify ⟨ED25519_ID, [], (expectedPayload wMsg wSig wPk).set 20 1⟩ wMsg wSig wPk
      = some ProgramResult.sigVerificationFailed :=
  claim_body_byte_corruption_fails wMsg wSig wPk (by decide) (by decide) (by decide)
    20 1 (by decide) (by decide) (by decide)

/-- C6: truncating a correctly constructed payload by any positive
amount (down to and including the empty payload) makes `sig_verify`
return `VerificationFailed` — never a panic — whatever program id and
accounts accompany it: the length comparison in `sig_verify` rejects
the candidate before `check_data` ever slices a byte. -/
theorem claim_truncation_fails (pid : List Nat) (accs : List AccountMeta)
    (msg sig pubkey : List Nat)
    (hpk : pubkey.length = 32) (hsig : sig.length = 64)
    (k : Nat) (hk : k < 112 + msg.length) :
    sig_verify ⟨pid, accs, (expectedPayload msg sig pubkey).take k⟩ msg sig pubkey
      = some ProgramResult.sigVerificationFailed := by
  unfold sig_verify
  split_ifs with hg
  · rfl
  · exfalso
    push_neg at hg
    have h3 := hg.2.2
    simp only at h3
    rw [List.length_take, expectedPayload_length msg sig pubkey hpk hsig] at h3
    omega

/-- Witness for C6: truncating the example payload to 50 bytes fails. -/
theorem claim_truncation_fails_witness :
    sig_verify ⟨ED25519_ID, [], (expectedPayload wMsg wSig wPk).take 50⟩ wMsg wSig wPk
      = some ProgramResult.sigVerificationFailed :=
  claim_truncation_fails ED25519_ID [] wMsg wSig wPk (by decide) (by decide) 50 (by decide)

/-- C7: a candidate whose program id differs from the trusted Ed25519
verifier id, or that is accompanied by one or more accounts, fails even
when every payload byte is otherwise correct. -/
theorem claim_wrong_identity_or_accounts_fails (ix : Instruction)
    (msg sig pubkey : List Nat)
    (h : ix.program_id ≠ ED25519_ID ∨ ix.accounts ≠ []) :
    sig_verify ix msg sig pubkey = some ProgramResult.sigVerificationFailed := by
  unfold sig_verify
  split_ifs with hg
  · rfl
  · exfalso
    push_neg at hg
    rcases h with h | h
    · exact h hg.1
    · exact h (List.length_eq_zero.mp hg.2.1)

/-- Witness for C7: the byte-perfect example payload under a different
program id (all zeros) is rejected. -/
theorem claim_wrong_identity_or_accounts_fails_witness :
    sig_verify ⟨List.replicate 32 0, [], expectedPayload wMsg wSig wPk⟩ wMsg wSig wPk
      = some ProgramResult.sigVerificationFailed :=
  claim_wrong_identity_or_accounts_fails
    ⟨List.replicate 32 0, [], expectedPayload wMsg wSig wPk⟩ wMsg wSig wPk
    (Or.inl (by decide))

/-- C8: `sig_verify` is a pure function of its four inputs — the
embedding is a mathematical function, so two calls on the same unchanged
candidate and expected values necessarily return the same result, and no
input is mutated (there is no state to mutate). -/
theorem claim_sig_verify_deterministic (ix : Instruction) (msg sig pubkey : List Nat)
    (r1 r2 : Option ProgramResult)
    (h1 : sig_verify ix msg sig pubkey = r1) (h2 : sig_verify ix msg sig pubkey = r2) :
    r1 = r2 := by
  rw [← h1, ← h2]

/-- Witness for C8 on a concrete call: both observations of
`sig_verify` on the zero candidate agree. -/
theorem claim_sig_verify_deterministic_witness :
    (some ProgramResult.sigVerificationFailed : Option ProgramResult)
      = some ProgramResult.sigVerificationFailed :=
  claim_sig_verify_deterministic ⟨[], [], []⟩ [] [] [] _ _ (by decide) (by decide)

/-- C9: `check_data` has no length guard of its own: on any buffer
shorter than 112 bytes (such as the empty one) its fixed-offset slicing
is out of bounds, so it panics (`none`) instead of returning
`VerificationFailed`; it is total only behind `sig_verify`'s length
equality check. -/
theorem claim_check_data_no_length_guard (msg sig pubkey data : List Nat)
    (h : data.length < 112) :
    check_data data msg sig pubkey = none ∧
      check_data data msg sig pubkey ≠ some ProgramResult.sigVerificationFailed := by
  have hnone : check_data data msg sig pubkey = none := by
    simp only [check_data]
    rw [if_pos h]
  exact ⟨hnone, by rw [hnone]; simp⟩

/-- Witness for C9: `check_data` on the empty buffer panics. -/
theorem claim_check_data_no_length_guard_witness :
    check_data [] wMsg wSig wPk = none ∧
      check_data [] wMsg wSig wPk ≠ some ProgramResult.sigVerificationFailed :=
  claim_check_data_no_length_guard wMsg wSig wPk [] (by decide)

/-- C10: the empty message is accepted: for a zero-length expected
message with matching 64-byte signature and 32-byte public key, the
correctly constructed payload is exactly 112 bytes (header, public key
and signature, with an empty message region compared as the empty
slice) and `sig_verify` returns `Ok` on it. -/
theorem claim_empty_message_accepted (sig pubkey : List Nat)
    (hpk : pubkey.length = 32) (hsig : sig.length = 64) :
    (expectedPayload [] sig pubkey).length = 112 ∧
    (expectedPayload [] sig pubkey).drop 112 = [] ∧
    sig_verify ⟨ED25519_ID, [], expectedPayload [] sig pubkey⟩ [] sig pubkey
      = some ProgramResult.ok := by
  refine ⟨?_, expectedPayload_drop112 [] sig pubkey hpk hsig, ?_⟩
  · rw [expectedPayload_length [] sig pubkey hpk hsig]
    rfl
  · rw [sig_verify_ok_iff _ [] sig pubkey hpk hsig (by simp)]
    exact ⟨rfl, rfl, rfl⟩

/-- Witness for C10 with the concrete key and signature vectors. -/
theorem claim_empty_message_accepted_witness :
    (expectedPayload [] wSig wPk).length = 112 ∧
    (expectedPayload [] wSig wPk).drop 112 = [] ∧
    sig_verify ⟨ED25519_ID, [], expectedPayload [] wSig wPk⟩ [] wSig wPk
      = some ProgramResult.ok :=
  claim_empty_message_accepted wSig wPk (by decide) (by decide)
